import Mathlib

/-!
Shallow embedding of `src/data/generate_data.py` (MuleShield synthetic
transaction dataset generator).

Modelling conventions:

* Randomness: the script draws from two process-global PRNGs (`random` seeded
  with 42 and `np.random` seeded with 42).  Both are modelled by a single
  oracle stream `g : ℕ → ℚ` of raw draws, consumed one value per library
  call, in program order.  Every primitive first maps a raw draw `v` to
  `Int.fract v ∈ [0,1)` (the idealised `random.random()` output), so every
  theorem below is quantified over all streams: it holds for every possible
  run of the script, whatever the seed.
* `random.randint(a, b)` (uniform integer on `[a, b]` inclusive) is modelled
  as `a + ⌊fract v * (b + 1 - a)⌋`, `random.choice(xs)` as indexing by
  `⌊fract v * len xs⌋`, `random.uniform(a, b)` as `a + (b - a) * fract v`
  (CPython's formula), and `random.sample(pop, k)` as `k` successive distinct
  picks (selection without replacement).  Only range/distinctness facts of
  these primitives are used, never distribution shape.
* `np.random.lognormal(mean, sigma)` returns an arbitrary nonnegative real;
  it is modelled as an arbitrary nonnegative draw `|v|` (the claims never
  constrain its distribution, only what happens after `round(·, 2)`).
* Python floats are modelled as exact rationals `ℚ`; `round(x, 2)` /
  `round(x)` use round-half-to-even on the rational value, as CPython does
  on the decimal reading of the float.
* Identifier strings `ACC%05d` / `MUL%05d` / `EXT%05d` are modelled by the
  three constructors of `AccountId` (the three prefix namespaces);
  `TXN%08d` transaction ids are modelled by the numeric counter value
  (zero-padding is order- and injectivity-preserving for this run size).
* Timestamps `START_DATE + timedelta(days, hours, minutes, seconds)` are
  kept as the four drawn components (no carrying occurs: hour ≤ 23,
  minute, second ≤ 59); `tsSeconds` is the offset in seconds from
  2024-01-01 00:00:00.
* Each transaction record also carries a ghost field `rule` naming the
  `add_txn` call site (synthesis rule) that emitted it; it is used only in
  specifications, mirroring which loop of the script produced the row.
-/

/-- Field `txn_type`: `"credit"` / `"debit"`. -/
inductive TxnType
  | credit
  | debit
deriving DecidableEq

/-- The 7 enumerated payment channels (`CHANNELS` list of the script). -/
inductive Channel
  | UPI
  | NEFT
  | IMPS
  | ATM
  | RTGS
  | MobileBanking
  | NetBanking
deriving DecidableEq

/-- Field `mule_type`: `"none"` / `"complicit"` / `"recruited"` / `"exploited"`. -/
inductive MuleType
  | none
  | complicit
  | recruited
  | exploited
deriving DecidableEq

/-- Ghost provenance tag: which `add_txn` call site (synthesis rule) emitted a
row.  `normalR` = normal-account loop; `complicitR` = complicit-mule loops
(credits and forwarded debits); `recruitedP1`/`recruitedP2` = recruited-mule
phase 1 / phase 2; `exploitedP1`/`exploitedP2` = exploited-mule phase 1 /
phase 2. -/
inductive Rule
  | normalR
  | complicitR
  | recruitedP1
  | recruitedP2
  | exploitedP1
  | exploitedP2
deriving DecidableEq

/-- Identifier namespaces: `normal i` models `ACC{i:05d}`, `mule i` models
`MUL{i:05d}`, `ext i` models `EXT{i:05d}`. -/
inductive AccountId
  | normal (i : ℕ)
  | mule (i : ℕ)
  | ext (i : ℕ)
deriving DecidableEq

instance : Inhabited AccountId := ⟨AccountId.normal 0⟩

/-- A generated timestamp: the components drawn by `rand_ts`, i.e.
`START_DATE + timedelta(days=day, hours=hour, minutes=minute, seconds=second)`. -/
structure TS where
  day : ℕ
  hour : ℕ
  minute : ℕ
  second : ℕ
deriving DecidableEq

/-- Offset in seconds from `START_DATE` (2024-01-01 00:00:00). -/
def tsSeconds (t : TS) : ℕ :=
  t.day * 86400 + t.hour * 3600 + t.minute * 60 + t.second

/-- One output record, with the fields appended by `add_txn` (plus the ghost
`rule` tag). `txn_id` is the numeric value of the `TXN%08d` token. -/
structure Txn where
  txn_id : ℕ
  ts : TS
  account_id : AccountId
  txn_type : TxnType
  amount : ℚ
  channel : Channel
  counterparty : AccountId
  is_mule : ℕ
  mule_type : MuleType
  rule : Rule
deriving DecidableEq

/-- Placeholder record used only as a `getD`/`getLastD` default in statements. -/
def dummyTxn : Txn :=
  ⟨0, ⟨0, 0, 0, 0⟩, AccountId.normal 0, TxnType.credit, 0, Channel.UPI,
    AccountId.normal 0, 0, MuleType.none, Rule.normalR⟩

/-- The oracle stream of raw PRNG draws. -/
abbrev RStream := ℕ → ℚ

/-- List `CHANNELS = ["UPI", "NEFT", "IMPS", "ATM", "RTGS", "Mobile Banking", "Net Banking"]`. -/
def CHANNELS : List Channel :=
  [Channel.UPI, Channel.NEFT, Channel.IMPS, Channel.ATM, Channel.RTGS,
   Channel.MobileBanking, Channel.NetBanking]

/-- Constant `TOTAL_DAYS = (END_DATE - START_DATE).days` with `START_DATE = 2024-01-01`,
`END_DATE = 2024-06-30`: the day offset of 2024-06-30 (day-of-year 182 in the
2024 leap year) from 2024-01-01 is 181. -/
def TOTAL_DAYS : ℕ := 181

/-- Constant `N_NORMAL = 300`. -/
def N_NORMAL : ℕ := 300

/-- Constant `N_MULE = 30`. -/
def N_MULE : ℕ := 30

/-- Constant `N_EXTERNAL = 50`. -/
def N_EXTERNAL : ℕ := 50

/-- Pool `NORMAL_IDS = [f"ACC{i:05d}" for i in 1..300]`. -/
def NORMAL_IDS : List AccountId := (List.range' 1 N_NORMAL).map AccountId.normal

/-- Pool `MULE_IDS = [f"MUL{i:05d}" for i in 1..30]`. -/
def MULE_IDS : List AccountId := (List.range' 1 N_MULE).map AccountId.mule

/-- Pool `EXTERNAL_IDS = [f"EXT{i:05d}" for i in 1..50]`. -/
def EXTERNAL_IDS : List AccountId := (List.range' 1 N_EXTERNAL).map AccountId.ext

/-- Pool `ALL_ACCOUNT_IDS = NORMAL_IDS + MULE_IDS`. -/
def ALL_ACCOUNT_IDS : List AccountId := NORMAL_IDS ++ MULE_IDS

/-- Subtype slice `COMPLICIT_MULES = MULE_IDS[0:10]`. -/
def COMPLICIT_MULES : List AccountId := MULE_IDS.take 10

/-- Subtype slice `RECRUITED_MULES = MULE_IDS[10:20]`. -/
def RECRUITED_MULES : List AccountId := (MULE_IDS.drop 10).take 10

/-- Subtype slice `EXPLOITED_MULES = MULE_IDS[20:30]`. -/
def EXPLOITED_MULES : List AccountId := MULE_IDS.drop 20

/-- Model of `random.randint(a, b)`: uniform integer on `[a, b]` inclusive, built from
one raw draw. -/
def randint (v : ℚ) (a b : ℕ) : ℕ :=
  a + (⌊Int.fract v * ((b : ℚ) + 1 - (a : ℚ))⌋).toNat

/-- Model of `random.choice(xs)`: uniform element of `xs`, built from one raw draw
(`d` is returned only for `xs = []`, which never occurs in the script). -/
def choiceD {α : Type} (v : ℚ) (xs : List α) (d : α) : α :=
  xs.getD (⌊Int.fract v * (xs.length : ℚ)⌋).toNat d

/-- Model of `random.uniform(a, b) = a + (b - a) * random.random()` (CPython formula). -/
def uniformR (v : ℚ) (a b : ℚ) : ℚ := a + (b - a) * Int.fract v

/-- Model of `np.random.lognormal(mean, sigma)`: an arbitrary nonnegative draw; the
distribution parameters do not constrain any verified property. -/
def lognormal (mean sigma : ℚ) (v : ℚ) : ℚ := |v|

/-- Round half to even to an integer (Python's `round(x)` on the exact value). -/
def rhe (x : ℚ) : ℤ :=
  if Int.fract x = 1/2 then (if 2 ∣ ⌊x⌋ then ⌊x⌋ else ⌊x⌋ + 1) else round x

/-- Python `round(x, 2)`: round to two decimal places. -/
def round2 (x : ℚ) : ℚ := (rhe (100 * x) : ℚ) / 100

/-- Python `round(x / 1000) * 1000`: round to the nearest multiple of 1000. -/
def roundK (x : ℚ) : ℚ := (rhe (x / 1000) : ℚ) * 1000

/-- Model of `round_amount(amount)`: with probability 0.25 round to the nearest 1000
(smurfing signal), otherwise round to 2 decimal places.  `v` is the raw draw
for the `random.random() < 0.25` test. -/
def round_amount (v : ℚ) (amount : ℚ) : ℚ :=
  if Int.fract v < 1/4 then roundK amount else round2 amount

/-- Model of `rand_ts(start_day, end_day, night_bias)`: a random timestamp in the
window.  Consumes the day draw, then (night-biased only) the 70% test draw,
then the hour draw, then minute and second draws; returns the timestamp and
the next stream index.  `end_day = TOTAL_DAYS` at call sites where the Python
default `end_day=None` applies. -/
def rand_ts (g : RStream) (i : ℕ) (start_day end_day : ℕ) (night_bias : Bool) :
    TS × ℕ :=
  let day := randint (g i) start_day end_day
  if night_bias then
    let hour :=
      if Int.fract (g (i+1)) < 7/10 then
        choiceD (g (i+2)) [23, 0, 1, 2, 3, 4] 23
      else
        randint (g (i+2)) 8 22
    let minute := randint (g (i+3)) 0 59
    let second := randint (g (i+4)) 0 59
    (⟨day, hour, minute, second⟩, i + 5)
  else
    let hour := randint (g (i+1)) 8 22
    let minute := randint (g (i+2)) 0 59
    let second := randint (g (i+3)) 0 59
    (⟨day, hour, minute, second⟩, i + 4)

/-- Model of `random.sample(pop, k)`: `k` distinct elements of `pop`, modelled as `k`
successive uniform picks each removed from the remaining pool.  Returns the
sample and the next stream index. -/
def sampleR {α : Type} [Inhabited α] (g : RStream) :
    ℕ → ℕ → List α → List α × ℕ
  | 0, i, _ => ([], i)
  | k+1, i, pop =>
    if pop.isEmpty then ([], i)
    else
      let idx := (⌊Int.fract (g i) * (pop.length : ℚ)⌋).toNat
      let x := pop.getD idx default
      let (rest, i1) := sampleR g k (i+1) (pop.eraseIdx idx)
      (x :: rest, i1)

/-- Model of `add_txn(...)`: builds the record appended to `transactions` and advances
the global `txn_counter` (`c` is the current counter value, used as the id). -/
def add_txn (c : ℕ) (account_id : AccountId) (txn_type : TxnType) (amount : ℚ)
    (channel : Channel) (counterparty : AccountId) (ts : TS) (is_mule : ℕ)
    (mule_type : MuleType) (rule : Rule) : Txn × ℕ :=
  (⟨c, ts, account_id, txn_type, amount, channel, counterparty, is_mule,
     mule_type, rule⟩, c + 1)

/-- Sequential emission: runs the body `f` once per element of `l`, threading
the stream index and the transaction counter and concatenating the emitted
records in order.  Counted loops `for _ in range(n)` use `l = List.replicate
n ()`. -/
def seqEmit {α : Type} (f : α → ℕ → ℕ → List Txn × ℕ × ℕ) :
    List α → ℕ → ℕ → List Txn × ℕ × ℕ
  | [], i, c => ([], i, c)
  | a :: rest, i, c =>
    let (ts1, i1, c1) := f a i c
    let (ts2, i2, c2) := seqEmit f rest i1 c1
    (ts1 ++ ts2, i2, c2)

/-- Body of the normal-account inner loop (lines 87-93): one baseline
transaction for account `acc`. -/
def normalTxnStep (g : RStream) (acc : AccountId) (i c : ℕ) :
    List Txn × ℕ × ℕ :=
  let (ts, i1) := rand_ts g i 0 TOTAL_DAYS false
  let tt := choiceD (g i1) [TxnType.credit, TxnType.debit] TxnType.credit
  let cp := choiceD (g (i1+1)) (ALL_ACCOUNT_IDS.filter (fun a => a != acc)) default
  let amount := round2 (lognormal (19/2) 1 (g (i1+2)))
  let ch := choiceD (g (i1+3)) CHANNELS Channel.UPI
  let (t, c1) := add_txn c acc tt amount ch cp ts 0 MuleType.none Rule.normalR
  ([t], i1 + 4, c1)

/-- Normal-account loop body (lines 85-93): `n_txns = randint(200, 600)`
baseline transactions. -/
def normalAccount (g : RStream) (acc : AccountId) (i c : ℕ) :
    List Txn × ℕ × ℕ :=
  let n := randint (g i) 200 600
  seqEmit (fun _ => normalTxnStep g acc) (List.replicate n ()) (i+1) c

/-- Complicit-mule credit loop (lines 107-112): `n` night-biased inbound
credits from victim sender `snd`, amounts uniform on [20000, 200000] through
`round_amount`.  Also returns the final value of the Python loop variable
`amount` (the last credit's amount; `a0` is returned when `n = 0`, which
never occurs since `n ≥ 3`). -/
def complicitCredits (g : RStream) (acc snd : AccountId) :
    ℕ → ℕ → ℕ → ℚ → List Txn × ℕ × ℕ × ℚ
  | 0, i, c, a0 => ([], i, c, a0)
  | n+1, i, c, _ =>
    let (ts, i1) := rand_ts g i (TOTAL_DAYS - 60) TOTAL_DAYS true
    let amount := round_amount (g (i1+1)) (uniformR (g i1) 20000 200000)
    let ch := choiceD (g (i1+2)) [Channel.UPI, Channel.NEFT, Channel.IMPS] Channel.UPI
    let (t, c1) := add_txn c acc TxnType.credit amount ch snd ts 1
      MuleType.complicit Rule.complicitR
    let (rest, i2, c2, aF) := complicitCredits g acc snd n (i1+3) c1 amount
    (t :: rest, i2, c2, aF)

/-- Complicit-mule forward loop (lines 115-121): `n` night-biased outgoing
debits to a random criminal receiver.  `amt` is the Python variable `amount`
left over from the credit loop: every iteration computes
`round_amount(amount * uniform(0.92, 0.99))` from that same value. -/
def complicitDebits (g : RStream) (acc : AccountId) (rcvs : List AccountId)
    (amt : ℚ) : ℕ → ℕ → ℕ → List Txn × ℕ × ℕ
  | 0, i, c => ([], i, c)
  | n+1, i, c =>
    let (ts, i1) := rand_ts g i (TOTAL_DAYS - 60) TOTAL_DAYS true
    let amount_out := round_amount (g (i1+1)) (amt * uniformR (g i1) (92/100) (99/100))
    let rcv := choiceD (g (i1+2)) rcvs default
    let ch := choiceD (g (i1+3)) [Channel.NEFT, Channel.RTGS, Channel.NetBanking]
      Channel.NEFT
    let (t, c1) := add_txn c acc TxnType.debit amount_out ch rcv ts 1
      MuleType.complicit Rule.complicitR
    let (rest, i2, c2) := complicitDebits g acc rcvs amt n (i1+4) c1
    (t :: rest, i2, c2)

/-- Complicit-mule per-sender block (lines 105-121): `n_credits = randint(3,
8)` inbound credits from `snd` immediately followed by the same number of
forwarded debits. -/
def complicitSenderBlock (g : RStream) (acc : AccountId) (rcvs : List AccountId)
    (snd : AccountId) (i c : ℕ) : List Txn × ℕ × ℕ :=
  let n := randint (g i) 3 8
  let (cts, i1, c1, amt) := complicitCredits g acc snd n (i+1) c 0
  let (dts, i2, c2) := complicitDebits g acc rcvs amt n i1 c1
  (cts ++ dts, i2, c2)

/-- Complicit-mule account body (lines 99-121): sample 1-2 criminal receivers
from `EXTERNAL_IDS[:20]` and 8-20 victim senders from `NORMAL_IDS`, then run
the per-sender block for each sender. -/
def complicitAccount (g : RStream) (acc : AccountId) (i c : ℕ) :
    List Txn × ℕ × ℕ :=
  let k1 := randint (g i) 1 2
  let (rcvs, i1) := sampleR g k1 (i+1) (EXTERNAL_IDS.take 20)
  let k2 := randint (g i1) 8 20
  let (snds, i2) := sampleR g k2 (i1+1) NORMAL_IDS
  seqEmit (complicitSenderBlock g acc rcvs) snds i2 c

/-- Recruited-mule phase-1 body (lines 131-137): one ordinary transaction in
days 0-60, labelled `is_mule=0, mule_type="recruited"`. -/
def recruitedP1Step (g : RStream) (acc : AccountId) (i c : ℕ) :
    List Txn × ℕ × ℕ :=
  let (ts, i1) := rand_ts g i 0 60 false
  let tt := choiceD (g i1) [TxnType.credit, TxnType.debit] TxnType.credit
  let cp := choiceD (g (i1+1)) NORMAL_IDS default
  let amount := round2 (lognormal 9 (8/10) (g (i1+2)))
  let ch := choiceD (g (i1+3)) CHANNELS Channel.UPI
  let (t, c1) := add_txn c acc tt amount ch cp ts 0 MuleType.recruited
    Rule.recruitedP1
  ([t], i1 + 4, c1)

/-- Recruited-mule phase-2 body (lines 140-154): one night-biased transaction
after day 61; with probability 0.55 a credit from a criminal handler,
otherwise a debit of `amount * uniform(0.88, 0.98)` (note: not passed through
any rounding) to a random element of `MULE_IDS + EXTERNAL_IDS[:15]`. -/
def recruitedP2Step (g : RStream) (acc : AccountId) (hs : List AccountId)
    (i c : ℕ) : List Txn × ℕ × ℕ :=
  let (ts, i1) := rand_ts g i 61 TOTAL_DAYS true
  let amount := round_amount (g (i1+1)) (uniformR (g i1) 15000 150000)
  if Int.fract (g (i1+2)) < 55/100 then
    let snd := choiceD (g (i1+3)) hs default
    let ch := choiceD (g (i1+4)) [Channel.UPI, Channel.IMPS] Channel.UPI
    let (t, c1) := add_txn c acc TxnType.credit amount ch snd ts 1
      MuleType.recruited Rule.recruitedP2
    ([t], i1 + 5, c1)
  else
    let rcv := choiceD (g (i1+3)) (MULE_IDS ++ EXTERNAL_IDS.take 15) default
    let amount_out := amount * uniformR (g (i1+4)) (88/100) (98/100)
    let ch := choiceD (g (i1+5)) [Channel.NEFT, Channel.ATM, Channel.NetBanking]
      Channel.NEFT
    let (t, c1) := add_txn c acc TxnType.debit amount_out ch rcv ts 1
      MuleType.recruited Rule.recruitedP2
    ([t], i1 + 6, c1)

/-- Recruited-mule account body (lines 127-154): sample 1-3 criminal handlers
from `EXTERNAL_IDS[20:35]`, then 50-120 phase-1 and 80-200 phase-2
transactions. -/
def recruitedAccount (g : RStream) (acc : AccountId) (i c : ℕ) :
    List Txn × ℕ × ℕ :=
  let kh := randint (g i) 1 3
  let (hs, i1) := sampleR g kh (i+1) ((EXTERNAL_IDS.drop 20).take 15)
  let n1 := randint (g i1) 50 120
  let r1 := seqEmit (fun _ => recruitedP1Step g acc) (List.replicate n1 ()) (i1+1) c
  let n2 := randint (g r1.2.1) 80 200
  let r2 := seqEmit (fun _ => recruitedP2Step g acc hs) (List.replicate n2 ())
    (r1.2.1 + 1) r1.2.2
  (r1.1 ++ r2.1, r2.2.1, r2.2.2)

/-- Exploited-mule phase-1 body (lines 164-171): one ordinary transaction in
days 0-90 on the account's consistent channel pair, labelled `is_mule=0,
mule_type="exploited"`. -/
def exploitedP1Step (g : RStream) (acc : AccountId) (i c : ℕ) :
    List Txn × ℕ × ℕ :=
  let (ts, i1) := rand_ts g i 0 90 false
  let tt := choiceD (g i1) [TxnType.credit, TxnType.debit] TxnType.credit
  let cp := choiceD (g (i1+1)) NORMAL_IDS default
  let amount := round2 (lognormal (17/2) (7/10) (g (i1+2)))
  let ch := choiceD (g (i1+3)) [Channel.UPI, Channel.MobileBanking] Channel.UPI
  let (t, c1) := add_txn c acc tt amount ch cp ts 0 MuleType.exploited
    Rule.exploitedP1
  ([t], i1 + 4, c1)

/-- Exploited-mule phase-2 body (lines 175-181): one large night-biased debit
in the 4-day window starting at `td` (the takeover day), to an attacker
destination. -/
def exploitedP2Step (g : RStream) (acc : AccountId) (dests : List AccountId)
    (td : ℕ) (i c : ℕ) : List Txn × ℕ × ℕ :=
  let (ts, i1) := rand_ts g i td (td + 3) true
  let amount := round_amount (g (i1+1)) (uniformR (g i1) 50000 500000)
  let dst := choiceD (g (i1+2)) dests default
  let ch := choiceD (g (i1+3)) [Channel.RTGS, Channel.NetBanking, Channel.NEFT]
    Channel.RTGS
  let (t, c1) := add_txn c acc TxnType.debit amount ch dst ts 1
    MuleType.exploited Rule.exploitedP2
  ([t], i1 + 4, c1)

/-- Exploited-mule account body (lines 160-181): sample 2-4 attacker
destinations from `EXTERNAL_IDS[35:]`, 100-250 phase-1 transactions, then a
takeover day in [91, 120] and 10-30 phase-2 debits. -/
def exploitedAccount (g : RStream) (acc : AccountId) (i c : ℕ) :
    List Txn × ℕ × ℕ :=
  let ka := randint (g i) 2 4
  let (dests, i1) := sampleR g ka (i+1) (EXTERNAL_IDS.drop 35)
  let n1 := randint (g i1) 100 250
  let r1 := seqEmit (fun _ => exploitedP1Step g acc) (List.replicate n1 ()) (i1+1) c
  let td := randint (g r1.2.1) 91 120
  let n2 := randint (g (r1.2.1 + 1)) 10 30
  let r2 := seqEmit (fun _ => exploitedP2Step g acc dests td) (List.replicate n2 ())
    (r1.2.1 + 2) r1.2.2
  (r1.1 ++ r2.1, r2.2.1, r2.2.2)

/-- The whole generation pass (lines 85-181): the four synthesizer blocks run
in program order with the shared stream index and `txn_counter` (which starts
at 1).  The result is the `transactions` list in emission order. -/
def generateAll (g : RStream) : List Txn :=
  let r1 := seqEmit (normalAccount g) NORMAL_IDS 0 1
  let r2 := seqEmit (complicitAccount g) COMPLICIT_MULES r1.2.1 r1.2.2
  let r3 := seqEmit (recruitedAccount g) RECRUITED_MULES r2.2.1 r2.2.2
  let r4 := seqEmit (exploitedAccount g) EXPLOITED_MULES r3.2.1 r3.2.2
  r1.1 ++ r2.1 ++ r3.1 ++ r4.1

/-- Bool test for `txn_type == "credit"`. -/
def isCreditB (t : Txn) : Bool := t.txn_type == TxnType.credit

/-- Bool test for `txn_type == "debit"`. -/
def isDebitB (t : Txn) : Bool := t.txn_type == TxnType.debit

/-- Amount `q` has at most two decimal places (it equals its own 2-place rounding). -/
def amount2dpB (q : ℚ) : Bool := (100 * q).den == 1

/-- Amount `q` is an integer multiple of 1000. -/
def thousandMultB (q : ℚ) : Bool := (q / 1000).den == 1

/-- Amount contract of spec section 6: 2-place decimal or smurfing-rounded
multiple of 1000. -/
def amountOKB (q : ℚ) : Bool := amount2dpB q || thousandMultB q

/-- Claim C2 as stated, on the output of one complicit per-sender block: the
j-th outgoing debit amount lies between 92% and 99% of the j-th inbound
credit amount. -/
def pairedSkimB (l : List Txn) : Bool :=
  let cs := l.filter isCreditB
  let ds := l.filter isDebitB
  (cs.length == ds.length) &&
    (cs.zip ds).all fun p =>
      decide (92/100 * p.1.amount ≤ p.2.amount) &&
      decide (p.2.amount ≤ 99/100 * p.1.amount)

/-- The rules that the spec calls mule-specific (Phase-2 / mule-behaviour)
synthesis rules. -/
def isMuleRuleB : Rule → Bool
  | Rule.complicitR => true
  | Rule.recruitedP2 => true
  | Rule.exploitedP2 => true
  | _ => false

/-- Claim C1 per-record test: `is_mule == 1` iff the account is a mule AND the
row came from a mule-specific rule; normal rows and phase-1 rows are labelled
0 while phase-1 rows still carry their non-none subtype. -/
def c1pred (t : Txn) : Bool :=
  ((t.is_mule == 1) == (decide (t.account_id ∈ MULE_IDS) && isMuleRuleB t.rule)) &&
  (!(t.rule == Rule.normalR) || (t.is_mule == 0 && t.mule_type == MuleType.none)) &&
  (!(t.rule == Rule.recruitedP1) ||
    (t.is_mule == 0 && t.mule_type == MuleType.recruited)) &&
  (!(t.rule == Rule.exploitedP1) ||
    (t.is_mule == 0 && t.mule_type == MuleType.exploited))

/-- Window start, in seconds from 2024-01-01 00:00:00. -/
def windowStartSec : ℕ := 0

/-- Last second of the window end date 2024-06-30 (day offset 181), i.e.
2024-06-30 23:59:59 = 182 * 86400 - 1 seconds after the window start. -/
def windowEndSec : ℕ := 15724799

/-- Claim C3 per-record test: timestamp within the window bounds, inclusive. -/
def windowB (t : Txn) : Bool :=
  decide (windowStartSec ≤ tsSeconds t.ts) && decide (tsSeconds t.ts ≤ windowEndSec)

/-- Claim C10 per-record test: hour in 8-22 or in the 23:00-04:59 night band. -/
def hourB (t : Txn) : Bool :=
  decide ((8 ≤ t.ts.hour ∧ t.ts.hour ≤ 22) ∨ t.ts.hour = 23 ∨ t.ts.hour ≤ 4)

/-- Claim C6 per-record test as stated (amount has at most 2 decimal places or
is a multiple of 1000). -/
def c6B (t : Txn) : Bool := amountOKB t.amount

/-- Claim C6 amended per-record test: the amount contract holds for every row
except the recruited-mule phase-2 debits, whose amounts are emitted unrounded. -/
def c6amB (t : Txn) : Bool :=
  (t.rule == Rule.recruitedP2 && isDebitB t) || amountOKB t.amount

/-- The counterparty pool of the recruited-mule phase-2 debit branch:
`MULE_IDS + EXTERNAL_IDS[:15]`. -/
def recruitedDebitPool : List AccountId := MULE_IDS ++ EXTERNAL_IDS.take 15

/-- Claim C7 per-record test as stated: a recruited phase-2 debit's
counterparty is a mule other than the emitter itself, or an external entity. -/
def c7B (t : Txn) : Bool :=
  !(t.rule == Rule.recruitedP2 && isDebitB t) ||
    ((decide (t.counterparty ∈ MULE_IDS) && !(t.counterparty == t.account_id)) ||
      decide (t.counterparty ∈ EXTERNAL_IDS))

/-- Claim C7 amended per-record test: a recruited phase-2 debit's counterparty
lies in `MULE_IDS + EXTERNAL_IDS[:15]` (possibly the emitter itself, never a
normal account). -/
def c7amB (t : Txn) : Bool :=
  !(t.rule == Rule.recruitedP2 && isDebitB t) ||
    decide (t.counterparty ∈ recruitedDebitPool)

/-- Conjunction of all per-record invariants proved for every emitted row. -/
def invPred (t : Txn) : Bool :=
  c1pred t && windowB t && hourB t && c6amB t && c7amB t

/-- Emission contract of a synthesizer piece: starting from counter `c` it
emits records whose ids are exactly `c, c+1, ...` in order, and leaves the
counter at `c + (number emitted)`. -/
def IdSpec (r : List Txn × ℕ × ℕ) (c : ℕ) : Prop :=
  r.1.map Txn.txn_id = List.range' c r.1.length ∧ r.2.2 = c + r.1.length

/-- The amount of the last inbound credit of a complicit per-sender block
(the final value of the Python loop variable `amount`). -/
def lastCreditAmount (g : RStream) (acc : AccountId) (rcvs : List AccountId)
    (snd : AccountId) (i c : ℕ) : ℚ :=
  (((complicitSenderBlock g acc rcvs snd i c).1.filter isCreditB).getLastD dummyTxn).amount

/-- Concrete stream for the C2 counterexample: credit amounts 100000, 20000,
20000 (draw 4/9 at index 6 makes the first credit 100000), no smurfing
rounding anywhere (draws 1/2 at the `round_amount` tests), all other draws 0.
The debits then all forward 92% of the LAST credit amount, 18400, which is
far outside [92%, 99%] of the first credit's 100000. -/
def gPair : RStream := fun n =>
  if n = 6 then 4/9
  else if n = 7 then 1/2
  else if n = 15 then 1/2
  else if n = 23 then 1/2
  else if n = 31 then 1/2
  else if n = 40 then 1/2
  else if n = 49 then 1/2
  else 0

/-- Concrete stream for the C6 counterexample: drives one recruited phase-2
iteration into the debit branch (draw 3/5 ≥ 0.55 at index 7), base amount
15000 rounded to 2 places (draw 1/2 at index 6), skim factor 0.88 + 0.1/7
(draw 1/7 at index 9), giving the unrounded debit amount 15000 * 313/350 =
93900/7, which has denominator 7. -/
def gPrec : RStream := fun n =>
  if n = 6 then 1/2
  else if n = 7 then 3/5
  else if n = 9 then 1/7
  else 0

/-- Concrete stream for the C7 counterexample: drives one recruited phase-2
iteration into the debit branch (draw 3/5 at index 7) and picks receiver
index ⌊(2/9) * 45⌋ = 10 in `MULE_IDS + EXTERNAL_IDS[:15]` (draw 2/9 at index
8), i.e. `MUL00011` — the emitting account itself. -/
def gSelf : RStream := fun n =>
  if n = 7 then 3/5
  else if n = 8 then 2/9
  else 0

/-- The all-zeros stream, used for witnesses. -/
def gZero : RStream := fun _ => 0

/-- Hour values produced by `rand_ts`: 8-22, or the 23:00-04:59 night band. -/
def hourOK (h : ℕ) : Prop := (8 ≤ h ∧ h ≤ 22) ∨ h = 23 ∨ h ≤ 4

/-! Basic facts about the random primitives -/

theorem le_randint (v : ℚ) (a b : ℕ) : a ≤ randint v a b :=
  Nat.le_add_right _ _

theorem randint_le (v : ℚ) (a b : ℕ) (h : a ≤ b) : randint v a b ≤ b := by
  have hX : (0:ℚ) < (b:ℚ) + 1 - (a:ℚ) := by
    have : (a:ℚ) ≤ (b:ℚ) := by exact_mod_cast h
    linarith
  have h1 : 0 ≤ ⌊Int.fract v * ((b:ℚ) + 1 - (a:ℚ))⌋ :=
    Int.floor_nonneg.mpr (mul_nonneg (Int.fract_nonneg v) hX.le)
  have h2 : ⌊Int.fract v * ((b:ℚ) + 1 - (a:ℚ))⌋ < (b:ℤ) + 1 - (a:ℤ) := by
    apply Int.floor_lt.mpr
    push_cast
    exact mul_lt_of_lt_one_left hX (Int.fract_lt_one v)
  unfold randint
  omega

theorem getD_mem {α : Type} (l : List α) (n : ℕ) (d : α) (h : n < l.length) :
    l.getD n d ∈ l := by
  rw [List.getD_eq_getElem l d h]
  exact List.getElem_mem h

theorem choiceD_mem {α : Type} (v : ℚ) (xs : List α) (d : α) (h : xs ≠ []) :
    choiceD v xs d ∈ xs := by
  have hlen : (0:ℚ) < (xs.length : ℚ) := by
    have := List.length_pos.mpr h
    exact_mod_cast this
  have h1 : 0 ≤ ⌊Int.fract v * (xs.length : ℚ)⌋ :=
    Int.floor_nonneg.mpr (mul_nonneg (Int.fract_nonneg v) hlen.le)
  have h2 : ⌊Int.fract v * (xs.length : ℚ)⌋ < (xs.length : ℤ) := by
    apply Int.floor_lt.mpr
    push_cast
    exact mul_lt_of_lt_one_left hlen (Int.fract_lt_one v)
  exact getD_mem xs _ d (by omega)

theorem le_uniformR (v : ℚ) (a b : ℚ) (h : a ≤ b) : a ≤ uniformR v a b := by
  have := mul_nonneg (sub_nonneg.mpr h) (Int.fract_nonneg v)
  unfold uniformR
  linarith

theorem uniformR_le (v : ℚ) (a b : ℚ) (h : a ≤ b) : uniformR v a b ≤ b := by
  have := mul_le_of_le_one_right (sub_nonneg.mpr h) (Int.fract_lt_one v).le
  unfold uniformR
  linarith

theorem amount2dpB_round2 (x : ℚ) : amount2dpB (round2 x) = true := by
  unfold amount2dpB round2
  rw [mul_comm, div_mul_cancel₀ _ (by norm_num : (100:ℚ) ≠ 0)]
  simp [Rat.den_intCast]

theorem thousandMultB_roundK (x : ℚ) : thousandMultB (roundK x) = true := by
  unfold thousandMultB roundK
  rw [mul_div_cancel_right₀ _ (by norm_num : (1000:ℚ) ≠ 0)]
  simp [Rat.den_intCast]

theorem amountOKB_round_amount (v x : ℚ) : amountOKB (round_amount v x) = true := by
  unfold amountOKB round_amount
  split
  · rw [thousandMultB_roundK]
    simp
  · rw [amount2dpB_round2]
    simp

theorem rand_ts_spec (g : RStream) (i : ℕ) (sd ed : ℕ) (nb : Bool)
    (h1 : sd ≤ ed) (h2 : ed ≤ 181) :
    sd ≤ (rand_ts g i sd ed nb).1.day ∧ (rand_ts g i sd ed nb).1.day ≤ 181 ∧
    hourOK (rand_ts g i sd ed nb).1.hour ∧
    (rand_ts g i sd ed nb).1.minute ≤ 59 ∧ (rand_ts g i sd ed nb).1.second ≤ 59 := by
  have hday1 := le_randint (g i) sd ed
  have hday2 := (randint_le (g i) sd ed h1).trans h2
  unfold rand_ts
  split
  · dsimp only
    refine ⟨hday1, hday2, ?_, randint_le _ 0 59 (by omega), randint_le _ 0 59 (by omega)⟩
    split
    · have hm := choiceD_mem (g (i+2)) [23, 0, 1, 2, 3, 4] 23 (by simp)
      simp only [List.mem_cons, List.not_mem_nil, or_false] at hm
      unfold hourOK
      rcases hm with h | h | h | h | h | h <;> rw [h] <;> omega
    · have ha := le_randint (g (i+2)) 8 22
      have hb := randint_le (g (i+2)) 8 22 (by omega)
      unfold hourOK
      omega
  · dsimp only
    refine ⟨hday1, hday2, ?_, randint_le _ 0 59 (by omega), randint_le _ 0 59 (by omega)⟩
    have ha := le_randint (g (i+1)) 8 22
    have hb := randint_le (g (i+1)) 8 22 (by omega)
    unfold hourOK
    omega

/-! Generic facts about sequential emission -/

theorem seqEmit_all {α : Type} (f : α → ℕ → ℕ → List Txn × ℕ × ℕ) (p : Txn → Bool)
    (l : List α) (h : ∀ a ∈ l, ∀ i c, ((f a i c).1.all p) = true) :
    ∀ i c, ((seqEmit f l i c).1.all p) = true := by
  induction l with
  | nil => intro i c; rfl
  | cons a rest ih =>
    intro i c
    simp only [seqEmit]
    rcases hf : f a i c with ⟨ts1, i1, c1⟩
    have h1 := h a (List.mem_cons_self a rest) i c
    rw [hf] at h1
    have h2 := ih (fun x hx i' c' => h x (List.mem_cons_of_mem a hx) i' c') i1 c1
    rcases hs : seqEmit f rest i1 c1 with ⟨ts2, i2, c2⟩
    rw [hs] at h2
    simp [List.all_append, h1, h2]

theorem seqEmit_idspec {α : Type} (f : α → ℕ → ℕ → List Txn × ℕ × ℕ)
    (l : List α) (h : ∀ a ∈ l, ∀ i c, IdSpec (f a i c) c) :
    ∀ i c, IdSpec (seqEmit f l i c) c := by
  induction l with
  | nil => intro i c; exact ⟨rfl, rfl⟩
  | cons a rest ih =>
    intro i c
    simp only [seqEmit]
    rcases hf : f a i c with ⟨ts1, i1, c1⟩
    have h1 := h a (List.mem_cons_self a rest) i c
    rw [hf] at h1
    have h2 := ih (fun x hx i' c' => h x (List.mem_cons_of_mem a hx) i' c') i1 c1
    rcases hs : seqEmit f rest i1 c1 with ⟨ts2, i2, c2⟩
    rw [hs] at h2
    obtain ⟨hm1, hc1⟩ := h1
    obtain ⟨hm2, hc2⟩ := h2
    dsimp only at hm1 hc1 hm2 hc2
    refine ⟨?_, ?_⟩
    · dsimp only
      rw [List.map_append, hm1, hm2, hc1, List.length_append, List.range'_append_1,
        Nat.add_comm ts2.length ts1.length]
    · dsimp only
      rw [List.length_append]
      omega

theorem seqEmit_countP {α : Type} (f : α → ℕ → ℕ → List Txn × ℕ × ℕ)
    (p q : Txn → Bool) (l : List α)
    (h : ∀ a ∈ l, ∀ i c, ((f a i c).1.countP p) = ((f a i c).1.countP q)) :
    ∀ i c, ((seqEmit f l i c).1.countP p) = ((seqEmit f l i c).1.countP q) := by
  induction l with
  | nil => intro i c; rfl
  | cons a rest ih =>
    intro i c
    simp only [seqEmit]
    rcases hf : f a i c with ⟨ts1, i1, c1⟩
    have h1 := h a (List.mem_cons_self a rest) i c
    rw [hf] at h1
    have h2 := ih (fun x hx i' c' => h x (List.mem_cons_of_mem a hx) i' c') i1 c1
    rcases hs : seqEmit f rest i1 c1 with ⟨ts2, i2, c2⟩
    rw [hs] at h2
    dsimp only at h1 h2 ⊢
    rw [List.countP_append, List.countP_append, h1, h2]

/-! Per-record invariants for each synthesis rule -/

theorem hourOK_le (h : ℕ) (hh : hourOK h) : h ≤ 23 := by
  rcases hh with ⟨h1, h2⟩ | h1 | h1 <;> omega

theorem tsSeconds_le (t : TS) (hd : t.day ≤ 181) (hh : t.hour ≤ 23)
    (hm : t.minute ≤ 59) (hs : t.second ≤ 59) : tsSeconds t ≤ windowEndSec := by
  unfold tsSeconds windowEndSec
  omega

theorem windowB_of_spec (t : Txn) (hd : t.ts.day ≤ 181) (hh : hourOK t.ts.hour)
    (hm : t.ts.minute ≤ 59) (hs : t.ts.second ≤ 59) : windowB t = true := by
  unfold windowB
  simp only [Bool.and_eq_true, decide_eq_true_eq]
  exact ⟨Nat.zero_le _, tsSeconds_le t.ts hd (hourOK_le _ hh) hm hs⟩

theorem invPred_true_of (t : Txn) (h1 : c1pred t = true) (h2 : windowB t = true)
    (h3 : hourB t = true) (h4 : c6amB t = true) (h5 : c7amB t = true) :
    invPred t = true := by
  unfold invPred
  rw [h1, h2, h3, h4, h5]
  rfl

theorem c1pred_label0 (t : Txn) (him : t.is_mule = 0)
    (hmr : isMuleRuleB t.rule = false)
    (hmt : (t.rule = Rule.normalR → t.mule_type = MuleType.none) ∧
      (t.rule = Rule.recruitedP1 → t.mule_type = MuleType.recruited) ∧
      (t.rule = Rule.exploitedP1 → t.mule_type = MuleType.exploited)) :
    c1pred t = true := by
  obtain ⟨hn, hr, he⟩ := hmt
  unfold c1pred
  rcases hq : t.rule <;> simp_all

theorem c1pred_label1 (t : Txn) (him : t.is_mule = 1)
    (hacc : t.account_id ∈ MULE_IDS) (hmr : isMuleRuleB t.rule = true) :
    c1pred t = true := by
  have hr : t.rule = Rule.complicitR ∨ t.rule = Rule.recruitedP2 ∨
      t.rule = Rule.exploitedP2 := by
    unfold isMuleRuleB at hmr
    rcases hq : t.rule <;> rw [hq] at hmr <;> simp_all
  unfold c1pred
  rcases hr with h | h | h <;> simp_all

theorem hourB_of (t : Txn) (hh : hourOK t.ts.hour) : hourB t = true := by
  unfold hourB
  unfold hourOK at hh
  exact decide_eq_true hh

theorem c6amB_of_amount (t : Txn) (ham : amountOKB t.amount = true) :
    c6amB t = true := by
  unfold c6amB
  rw [ham, Bool.or_true]

theorem c6amB_of_p2debit (t : Txn) (hr : t.rule = Rule.recruitedP2)
    (ht : t.txn_type = TxnType.debit) : c6amB t = true := by
  unfold c6amB isDebitB
  rw [hr, ht]
  rfl

theorem c7amB_of_rule (t : Txn) (hr : t.rule ≠ Rule.recruitedP2) :
    c7amB t = true := by
  unfold c7amB
  have : (t.rule == Rule.recruitedP2) = false := by
    simpa using hr
  rw [this]
  rfl

theorem c7amB_of_credit (t : Txn) (ht : t.txn_type = TxnType.credit) :
    c7amB t = true := by
  unfold c7amB isDebitB
  rw [ht]
  simp

theorem c7amB_of_pool (t : Txn) (hcp : t.counterparty ∈ recruitedDebitPool) :
    c7amB t = true := by
  unfold c7amB
  rw [decide_eq_true hcp]
  simp

theorem normalTxnStep_inv (g : RStream) (acc : AccountId) (i c : ℕ) :
    ((normalTxnStep g acc i c).1.all invPred) = true := by
  have hts := rand_ts_spec g i 0 TOTAL_DAYS false (Nat.zero_le _) (by norm_num [TOTAL_DAYS])
  unfold normalTxnStep
  rcases hr : rand_ts g i 0 TOTAL_DAYS false with ⟨ts, i1⟩
  rw [hr] at hts
  dsimp only at hts
  obtain ⟨-, hd, hh, hm, hs⟩ := hts
  dsimp only [add_txn]
  simp only [List.all_cons, List.all_nil, Bool.and_true]
  apply invPred_true_of
  · exact c1pred_label0 _ rfl rfl ⟨fun _ => rfl, by simp, by simp⟩
  · exact windowB_of_spec _ hd hh hm hs
  · exact hourB_of _ hh
  · exact c6amB_of_amount _ (by simp [amountOKB, amount2dpB_round2])
  · exact c7amB_of_rule _ (by simp)

theorem complicitCredits_inv (g : RStream) (acc snd : AccountId)
    (hacc : acc ∈ MULE_IDS) :
    ∀ n i c a0, ((complicitCredits g acc snd n i c a0).1.all invPred) = true := by
  intro n
  induction n with
  | zero => intro i c a0; rfl
  | succ n ih =>
    intro i c a0
    have hts := rand_ts_spec g i (TOTAL_DAYS - 60) TOTAL_DAYS true
      (by norm_num [TOTAL_DAYS]) (by norm_num [TOTAL_DAYS])
    unfold complicitCredits
    rcases hr : rand_ts g i (TOTAL_DAYS - 60) TOTAL_DAYS true with ⟨ts, i1⟩
    rw [hr] at hts
    dsimp only at hts
    obtain ⟨-, hd, hh, hm, hs⟩ := hts
    dsimp only [add_txn]
    rcases hrec : complicitCredits g acc snd n (i1+3) (c+1)
        (round_amount (g (i1+1)) (uniformR (g i1) 20000 200000)) with ⟨rest, i2, c2, aF⟩
    have hrest := ih (i1+3) (c+1) (round_amount (g (i1+1)) (uniformR (g i1) 20000 200000))
    rw [hrec] at hrest
    dsimp only at hrest ⊢
    rw [List.all_cons, hrest, Bool.and_true]
    apply invPred_true_of
    · exact c1pred_label1 _ rfl hacc rfl
    · exact windowB_of_spec _ hd hh hm hs
    · exact hourB_of _ hh
    · exact c6amB_of_amount _ (amountOKB_round_amount _ _)
    · exact c7amB_of_rule _ (by simp)

theorem complicitDebits_inv (g : RStream) (acc : AccountId) (rcvs : List AccountId)
    (amt : ℚ) (hacc : acc ∈ MULE_IDS) :
    ∀ n i c, ((complicitDebits g acc rcvs amt n i c).1.all invPred) = true := by
  intro n
  induction n with
  | zero => intro i c; rfl
  | succ n ih =>
    intro i c
    have hts := rand_ts_spec g i (TOTAL_DAYS - 60) TOTAL_DAYS true
      (by norm_num [TOTAL_DAYS]) (by norm_num [TOTAL_DAYS])
    unfold complicitDebits
    rcases hr : rand_ts g i (TOTAL_DAYS - 60) TOTAL_DAYS true with ⟨ts, i1⟩
    rw [hr] at hts
    dsimp only at hts
    obtain ⟨-, hd, hh, hm, hs⟩ := hts
    dsimp only [add_txn]
    rcases hrec : complicitDebits g acc rcvs amt n (i1+4) (c+1) with ⟨rest, i2, c2⟩
    have hrest := ih (i1+4) (c+1)
    rw [hrec] at hrest
    dsimp only at hrest ⊢
    rw [List.all_cons, hrest, Bool.and_true]
    apply invPred_true_of
    · exact c1pred_label1 _ rfl hacc rfl
    · exact windowB_of_spec _ hd hh hm hs
    · exact hourB_of _ hh
    · exact c6amB_of_amount _ (amountOKB_round_amount _ _)
    · exact c7amB_of_rule _ (by simp)

theorem complicitSenderBlock_inv (g : RStream) (acc : AccountId)
    (rcvs : List AccountId) (snd : AccountId) (hacc : acc ∈ MULE_IDS) :
    ∀ i c, ((complicitSenderBlock g acc rcvs snd i c).1.all invPred) = true := by
  intro i c
  unfold complicitSenderBlock
  dsimp only
  rcases hc : complicitCredits g acc snd (randint (g i) 3 8) (i+1) c 0 with ⟨cts, i1, c1, amt⟩
  dsimp only
  rcases hd : complicitDebits g acc rcvs amt (randint (g i) 3 8) i1 c1 with ⟨dts, i2, c2⟩
  dsimp only
  have h1 := complicitCredits_inv g acc snd hacc (randint (g i) 3 8) (i+1) c 0
  rw [hc] at h1
  have h2 := complicitDebits_inv g acc rcvs amt hacc (randint (g i) 3 8) i1 c1
  rw [hd] at h2
  dsimp only at h1 h2
  rw [List.all_append, h1, h2]
  rfl

theorem complicitAccount_inv (g : RStream) (acc : AccountId) (hacc : acc ∈ MULE_IDS) :
    ∀ i c, ((complicitAccount g acc i c).1.all invPred) = true := by
  intro i c
  unfold complicitAccount
  dsimp only
  rcases h1 : sampleR g (randint (g i) 1 2) (i+1) (EXTERNAL_IDS.take 20) with ⟨rcvs, i1⟩
  dsimp only
  rcases h2 : sampleR g (randint (g i1) 8 20) (i1+1) NORMAL_IDS with ⟨snds, i2⟩
  dsimp only
  exact seqEmit_all _ invPred snds
    (fun a _ i' c' => complicitSenderBlock_inv g acc rcvs a hacc i' c') i2 c

theorem normalAccount_inv (g : RStream) (acc : AccountId) :
    ∀ i c, ((normalAccount g acc i c).1.all invPred) = true := by
  intro i c
  unfold normalAccount
  exact seqEmit_all _ invPred _ (fun a _ i' c' => normalTxnStep_inv g acc i' c') (i+1) c

theorem recruitedP1Step_inv (g : RStream) (acc : AccountId) (i c : ℕ) :
    ((recruitedP1Step g acc i c).1.all invPred) = true := by
  have hts := rand_ts_spec g i 0 60 false (by norm_num) (by norm_num)
  unfold recruitedP1Step
  rcases hr : rand_ts g i 0 60 false with ⟨ts, i1⟩
  rw [hr] at hts
  dsimp only at hts
  obtain ⟨-, hd, hh, hm, hs⟩ := hts
  dsimp only [add_txn]
  simp only [List.all_cons, List.all_nil, Bool.and_true]
  apply invPred_true_of
  · exact c1pred_label0 _ rfl rfl ⟨by simp, fun _ => rfl, by simp⟩
  · exact windowB_of_spec _ hd hh hm hs
  · exact hourB_of _ hh
  · exact c6amB_of_amount _ (by simp [amountOKB, amount2dpB_round2])
  · exact c7amB_of_rule _ (by simp)

theorem recruitedDebitPool_ne_nil : recruitedDebitPool ≠ [] := by
  apply List.ne_nil_of_length_pos
  simp [recruitedDebitPool, MULE_IDS, EXTERNAL_IDS, N_MULE, N_EXTERNAL]

theorem recruitedP2Step_inv (g : RStream) (acc : AccountId) (hs : List AccountId)
    (hacc : acc ∈ MULE_IDS) (i c : ℕ) :
    ((recruitedP2Step g acc hs i c).1.all invPred) = true := by
  have hts := rand_ts_spec g i 61 TOTAL_DAYS true (by norm_num [TOTAL_DAYS])
    (by norm_num [TOTAL_DAYS])
  unfold recruitedP2Step
  rcases hr : rand_ts g i 61 TOTAL_DAYS true with ⟨ts, i1⟩
  rw [hr] at hts
  dsimp only at hts
  obtain ⟨-, hd, hh, hm, hsec⟩ := hts
  dsimp only
  split
  · dsimp only [add_txn]
    simp only [List.all_cons, List.all_nil, Bool.and_true]
    apply invPred_true_of
    · exact c1pred_label1 _ rfl hacc rfl
    · exact windowB_of_spec _ hd hh hm hsec
    · exact hourB_of _ hh
    · exact c6amB_of_amount _ (amountOKB_round_amount _ _)
    · exact c7amB_of_credit _ rfl
  · dsimp only [add_txn]
    simp only [List.all_cons, List.all_nil, Bool.and_true]
    apply invPred_true_of
    · exact c1pred_label1 _ rfl hacc rfl
    · exact windowB_of_spec _ hd hh hm hsec
    · exact hourB_of _ hh
    · exact c6amB_of_p2debit _ rfl rfl
    · exact c7amB_of_pool _
        (choiceD_mem (g (i1+3)) recruitedDebitPool default recruitedDebitPool_ne_nil)

theorem recruitedAccount_inv (g : RStream) (acc : AccountId) (hacc : acc ∈ MULE_IDS) :
    ∀ i c, ((recruitedAccount g acc i c).1.all invPred) = true := by
  intro i c
  unfold recruitedAccount
  dsimp only
  rcases h1 : sampleR g (randint (g i) 1 3) (i+1) ((EXTERNAL_IDS.drop 20).take 15)
    with ⟨hs, i1⟩
  dsimp only
  rw [List.all_append]
  rw [seqEmit_all _ invPred _ (fun a _ i' c' => recruitedP1Step_inv g acc i' c') (i1+1) c]
  rw [seqEmit_all _ invPred _
    (fun a _ i' c' => recruitedP2Step_inv g acc hs hacc i' c') _ _]
  rfl

theorem exploitedP1Step_inv (g : RStream) (acc : AccountId) (i c : ℕ) :
    ((exploitedP1Step g acc i c).1.all invPred) = true := by
  have hts := rand_ts_spec g i 0 90 false (by norm_num) (by norm_num)
  unfold exploitedP1Step
  rcases hr : rand_ts g i 0 90 false with ⟨ts, i1⟩
  rw [hr] at hts
  dsimp only at hts
  obtain ⟨-, hd, hh, hm, hs⟩ := hts
  dsimp only [add_txn]
  simp only [List.all_cons, List.all_nil, Bool.and_true]
  apply invPred_true_of
  · exact c1pred_label0 _ rfl rfl ⟨by simp, by simp, fun _ => rfl⟩
  · exact windowB_of_spec _ hd hh hm hs
  · exact hourB_of _ hh
  · exact c6amB_of_amount _ (by simp [amountOKB, amount2dpB_round2])
  · exact c7amB_of_rule _ (by simp)

theorem exploitedP2Step_inv (g : RStream) (acc : AccountId) (dests : List AccountId)
    (td : ℕ) (hacc : acc ∈ MULE_IDS) (htd : td ≤ 120) (i c : ℕ) :
    ((exploitedP2Step g acc dests td i c).1.all invPred) = true := by
  have hts := rand_ts_spec g i td (td+3) true (by omega) (by omega)
  unfold exploitedP2Step
  rcases hr : rand_ts g i td (td+3) true with ⟨ts, i1⟩
  rw [hr] at hts
  dsimp only at hts
  obtain ⟨-, hd, hh, hm, hs⟩ := hts
  dsimp only [add_txn]
  simp only [List.all_cons, List.all_nil, Bool.and_true]
  apply invPred_true_of
  · exact c1pred_label1 _ rfl hacc rfl
  · exact windowB_of_spec _ hd hh hm hs
  · exact hourB_of _ hh
  · exact c6amB_of_amount _ (amountOKB_round_amount _ _)
  · exact c7amB_of_rule _ (by simp)

theorem exploitedAccount_inv (g : RStream) (acc : AccountId) (hacc : acc ∈ MULE_IDS) :
    ∀ i c, ((exploitedAccount g acc i c).1.all invPred) = true := by
  intro i c
  unfold exploitedAccount
  dsimp only
  rcases h1 : sampleR g (randint (g i) 2 4) (i+1) (EXTERNAL_IDS.drop 35) with ⟨dests, i1⟩
  dsimp only
  rw [List.all_append]
  rw [seqEmit_all _ invPred _ (fun a _ i' c' => exploitedP1Step_inv g acc i' c') (i1+1) c]
  rw [seqEmit_all _ invPred _ (fun a _ i' c' => exploitedP2Step_inv g acc dests _
    hacc (randint_le _ 91 120 (by norm_num)) i' c') _ _]
  rfl

theorem mem_MULE_of_complicit {a : AccountId} (ha : a ∈ COMPLICIT_MULES) :
    a ∈ MULE_IDS := by
  unfold COMPLICIT_MULES at ha
  exact List.take_subset _ _ ha

theorem mem_MULE_of_recruited {a : AccountId} (ha : a ∈ RECRUITED_MULES) :
    a ∈ MULE_IDS := by
  unfold RECRUITED_MULES at ha
  exact List.drop_subset _ _ (List.take_subset _ _ ha)

theorem mem_MULE_of_exploited {a : AccountId} (ha : a ∈ EXPLOITED_MULES) :
    a ∈ MULE_IDS := by
  unfold EXPLOITED_MULES at ha
  exact List.drop_subset _ _ ha

theorem generateAll_inv (g : RStream) : ((generateAll g).all invPred) = true := by
  unfold generateAll
  dsimp only
  rw [List.all_append, List.all_append, List.all_append]
  rw [seqEmit_all _ invPred NORMAL_IDS (fun a _ i' c' => normalAccount_inv g a i' c') 0 1]
  rw [seqEmit_all _ invPred COMPLICIT_MULES
    (fun a ha i' c' => complicitAccount_inv g a (mem_MULE_of_complicit ha) i' c') _ _]
  rw [seqEmit_all _ invPred RECRUITED_MULES
    (fun a ha i' c' => recruitedAccount_inv g a (mem_MULE_of_recruited ha) i' c') _ _]
  rw [seqEmit_all _ invPred EXPLOITED_MULES
    (fun a ha i' c' => exploitedAccount_inv g a (mem_MULE_of_exploited ha) i' c') _ _]
  rfl

theorem list_all_weaken (p q : Txn → Bool) (h : ∀ t, p t = true → q t = true)
    (l : List Txn) (hl : l.all p = true) : l.all q = true := by
  rw [List.all_eq_true] at hl ⊢
  exact fun t ht => h t (hl t ht)

theorem invPred_c1 (t : Txn) (h : invPred t = true) : c1pred t = true := by
  unfold invPred at h
  simp only [Bool.and_eq_true] at h
  exact h.1.1.1.1

theorem invPred_window (t : Txn) (h : invPred t = true) : windowB t = true := by
  unfold invPred at h
  simp only [Bool.and_eq_true] at h
  exact h.1.1.1.2

theorem invPred_hour (t : Txn) (h : invPred t = true) : hourB t = true := by
  unfold invPred at h
  simp only [Bool.and_eq_true] at h
  exact h.1.1.2

theorem invPred_c6am (t : Txn) (h : invPred t = true) : c6amB t = true := by
  unfold invPred at h
  simp only [Bool.and_eq_true] at h
  exact h.1.2

theorem invPred_c7am (t : Txn) (h : invPred t = true) : c7amB t = true := by
  unfold invPred at h
  simp only [Bool.and_eq_true] at h
  exact h.2

/-- Claim C1: in every run, every emitted record has `is_mule = 1` exactly when
its `account_id` is a mule account and it was produced by a mule-specific
(Phase-2 / mule-behaviour) synthesis rule; rows from the normal-account
synthesizer and Phase-1 rows of recruited/exploited mules carry `is_mule = 0`
even though the latter have a non-none `mule_type`. -/
theorem mule_flag_iff_mule_rule (g : RStream) :
    ((generateAll g).all c1pred) = true :=
  list_all_weaken invPred c1pred invPred_c1 _ (generateAll_inv g)

/-- Claim C3: in every run, every emitted record's timestamp lies within the
configured window, inclusive: not before 2024-01-01 00:00:00 and not after the
window end date 2024-06-30 (last second 2024-06-30 23:59:59). -/
theorem timestamps_within_window (g : RStream) :
    ((generateAll g).all windowB) = true :=
  list_all_weaken invPred windowB invPred_window _ (generateAll_inv g)

/-- Claim C10: in every run, every emitted record's hour lies in 8-22 or in
the 23:00-04:59 night band; hours 5, 6 and 7 never occur, because the
non-night branch of `rand_ts` also draws hours only from 8-22. -/
theorem hours_daytime_or_night_band (g : RStream) :
    ((generateAll g).all hourB) = true :=
  list_all_weaken invPred hourB invPred_hour _ (generateAll_inv g)

/-- Claim C6 (amended): in every run, every emitted record's amount is a
2-decimal-place value or an integer multiple of 1000, EXCEPT the
recruited-mule Phase-2 debit rows, whose amount `amount * uniform(0.88, 0.98)`
is emitted without any rounding and may carry arbitrary precision. -/
theorem amount_precision_except_recruited_debit (g : RStream) :
    ((generateAll g).all c6amB) = true :=
  list_all_weaken invPred c6amB invPred_c6am _ (generateAll_inv g)

/-- Claim C7 (amended): in every run, every recruited-mule Phase-2 debit's
counterparty lies in the pool `MULE_IDS + EXTERNAL_IDS[:15]` — another mule
account, the emitting mule itself (the pool includes it, nothing excludes
self), or one of the first 15 external entities — and never a normal
account. -/
theorem recruited_debit_counterparty_in_pool (g : RStream) :
    ((generateAll g).all c7amB) = true :=
  list_all_weaken invPred c7amB invPred_c7am _ (generateAll_inv g)

/-! Transaction-id bookkeeping (claim C9) -/

theorem IdSpec_append (l1 l2 : List Txn) (i2 c c1 c2 : ℕ)
    (h1 : l1.map Txn.txn_id = List.range' c l1.length) (hc1 : c1 = c + l1.length)
    (h2 : l2.map Txn.txn_id = List.range' c1 l2.length) (hc2 : c2 = c1 + l2.length) :
    IdSpec (l1 ++ l2, i2, c2) c := by
  constructor
  · dsimp only
    rw [List.map_append, h1, h2, hc1, List.length_append, List.range'_append_1,
      Nat.add_comm l2.length l1.length]
  · dsimp only
    rw [List.length_append]
    omega

theorem normalTxnStep_ids (g : RStream) (acc : AccountId) (i c : ℕ) :
    IdSpec (normalTxnStep g acc i c) c := by
  unfold normalTxnStep add_txn IdSpec
  dsimp only
  exact ⟨by simp [List.range'], rfl⟩

theorem complicitCredits_ids (g : RStream) (acc snd : AccountId) :
    ∀ n i c a0,
    (complicitCredits g acc snd n i c a0).1.map Txn.txn_id
      = List.range' c (complicitCredits g acc snd n i c a0).1.length ∧
    (complicitCredits g acc snd n i c a0).2.2.1
      = c + (complicitCredits g acc snd n i c a0).1.length := by
  intro n
  induction n with
  | zero => intro i c a0; exact ⟨rfl, rfl⟩
  | succ n ih =>
    intro i c a0
    unfold complicitCredits add_txn
    dsimp only
    rcases hrec : complicitCredits g acc snd n
        ((rand_ts g i (TOTAL_DAYS - 60) TOTAL_DAYS true).2 + 3) (c+1)
        (round_amount (g ((rand_ts g i (TOTAL_DAYS - 60) TOTAL_DAYS true).2 + 1))
          (uniformR (g (rand_ts g i (TOTAL_DAYS - 60) TOTAL_DAYS true).2) 20000 200000))
      with ⟨rest, i2, c2, aF⟩
    have h := ih ((rand_ts g i (TOTAL_DAYS - 60) TOTAL_DAYS true).2 + 3) (c+1)
        (round_amount (g ((rand_ts g i (TOTAL_DAYS - 60) TOTAL_DAYS true).2 + 1))
          (uniformR (g (rand_ts g i (TOTAL_DAYS - 60) TOTAL_DAYS true).2) 20000 200000))
    rw [hrec] at h
    obtain ⟨hm, hc⟩ := h
    dsimp only at hm hc ⊢
    constructor
    · dsimp only [List.map_cons, List.length_cons]
      rw [hm, List.range'_succ]
    · dsimp only [List.length_cons]
      omega

theorem complicitDebits_ids (g : RStream) (acc : AccountId) (rcvs : List AccountId)
    (amt : ℚ) : ∀ n i c, IdSpec (complicitDebits g acc rcvs amt n i c) c := by
  intro n
  induction n with
  | zero => intro i c; exact ⟨rfl, rfl⟩
  | succ n ih =>
    intro i c
    unfold complicitDebits add_txn
    dsimp only
    rcases hrec : complicitDebits g acc rcvs amt n
        ((rand_ts g i (TOTAL_DAYS - 60) TOTAL_DAYS true).2 + 4) (c+1)
      with ⟨rest, i2, c2⟩
    have h := ih ((rand_ts g i (TOTAL_DAYS - 60) TOTAL_DAYS true).2 + 4) (c+1)
    rw [hrec] at h
    obtain ⟨hm, hc⟩ := h
    dsimp only at hm hc ⊢
    constructor
    · dsimp only [List.map_cons, List.length_cons]
      rw [hm, List.range'_succ]
    · dsimp only [List.length_cons]
      omega

theorem complicitSenderBlock_ids (g : RStream) (acc : AccountId)
    (rcvs : List AccountId) (snd : AccountId) :
    ∀ i c, IdSpec (complicitSenderBlock g acc rcvs snd i c) c := by
  intro i c
  unfold complicitSenderBlock
  dsimp only
  rcases hc : complicitCredits g acc snd (randint (g i) 3 8) (i+1) c 0
    with ⟨cts, i1, c1, amt⟩
  dsimp only
  rcases hd : complicitDebits g acc rcvs amt (randint (g i) 3 8) i1 c1
    with ⟨dts, i2, c2⟩
  dsimp only
  have h1 := complicitCredits_ids g acc snd (randint (g i) 3 8) (i+1) c 0
  rw [hc] at h1
  have h2 := complicitDebits_ids g acc rcvs amt (randint (g i) 3 8) i1 c1
  rw [hd] at h2
  obtain ⟨hm1, hc1⟩ := h1
  obtain ⟨hm2, hc2⟩ := h2
  dsimp only at hm1 hc1 hm2 hc2
  exact IdSpec_append cts dts i2 c c1 c2 hm1 hc1 hm2 hc2

theorem complicitAccount_ids (g : RStream) (acc : AccountId) :
    ∀ i c, IdSpec (complicitAccount g acc i c) c := by
  intro i c
  unfold complicitAccount
  dsimp only
  rcases h1 : sampleR g (randint (g i) 1 2) (i+1) (EXTERNAL_IDS.take 20) with ⟨rcvs, i1⟩
  dsimp only
  rcases h2 : sampleR g (randint (g i1) 8 20) (i1+1) NORMAL_IDS with ⟨snds, i2⟩
  dsimp only
  exact seqEmit_idspec _ snds
    (fun a _ i' c' => complicitSenderBlock_ids g acc rcvs a i' c') i2 c

theorem normalAccount_ids (g : RStream) (acc : AccountId) :
    ∀ i c, IdSpec (normalAccount g acc i c) c := by
  intro i c
  unfold normalAccount
  exact seqEmit_idspec _ _ (fun a _ i' c' => normalTxnStep_ids g acc i' c') (i+1) c

theorem recruitedP1Step_ids (g : RStream) (acc : AccountId) (i c : ℕ) :
    IdSpec (recruitedP1Step g acc i c) c := by
  unfold recruitedP1Step add_txn IdSpec
  dsimp only
  exact ⟨by simp [List.range'], rfl⟩

theorem recruitedP2Step_ids (g : RStream) (acc : AccountId) (hs : List AccountId)
    (i c : ℕ) : IdSpec (recruitedP2Step g acc hs i c) c := by
  unfold recruitedP2Step add_txn IdSpec
  dsimp only
  split
  · exact ⟨by simp [List.range'], rfl⟩
  · exact ⟨by simp [List.range'], rfl⟩

theorem recruitedAccount_ids (g : RStream) (acc : AccountId) :
    ∀ i c, IdSpec (recruitedAccount g acc i c) c := by
  intro i c
  unfold recruitedAccount
  dsimp only
  rcases h1 : sampleR g (randint (g i) 1 3) (i+1) ((EXTERNAL_IDS.drop 20).take 15)
    with ⟨hs, i1⟩
  dsimp only
  rcases hr1 : seqEmit (fun _ => recruitedP1Step g acc)
      (List.replicate (randint (g i1) 50 120) ()) (i1+1) c with ⟨l1, j1, d1⟩
  dsimp only
  rcases hr2 : seqEmit (fun _ => recruitedP2Step g acc hs)
      (List.replicate (randint (g j1) 80 200) ()) (j1+1) d1 with ⟨l2, j2, d2⟩
  dsimp only
  have hp1 := seqEmit_idspec _ (List.replicate (randint (g i1) 50 120) ())
    (fun a _ i' c' => recruitedP1Step_ids g acc i' c') (i1+1) c
  rw [hr1] at hp1
  have hp2 := seqEmit_idspec _ (List.replicate (randint (g j1) 80 200) ())
    (fun a _ i' c' => recruitedP2Step_ids g acc hs i' c') (j1+1) d1
  rw [hr2] at hp2
  obtain ⟨hm1, hc1⟩ := hp1
  obtain ⟨hm2, hc2⟩ := hp2
  dsimp only at hm1 hc1 hm2 hc2
  exact IdSpec_append l1 l2 j2 c d1 d2 hm1 hc1 hm2 hc2

theorem exploitedP1Step_ids (g : RStream) (acc : AccountId) (i c : ℕ) :
    IdSpec (exploitedP1Step g acc i c) c := by
  unfold exploitedP1Step add_txn IdSpec
  dsimp only
  exact ⟨by simp [List.range'], rfl⟩

theorem exploitedP2Step_ids (g : RStream) (acc : AccountId) (dests : List AccountId)
    (td : ℕ) (i c : ℕ) : IdSpec (exploitedP2Step g acc dests td i c) c := by
  unfold exploitedP2Step add_txn IdSpec
  dsimp only
  exact ⟨by simp [List.range'], rfl⟩

theorem exploitedAccount_ids (g : RStream) (acc : AccountId) :
    ∀ i c, IdSpec (exploitedAccount g acc i c) c := by
  intro i c
  unfold exploitedAccount
  dsimp only
  rcases h1 : sampleR g (randint (g i) 2 4) (i+1) (EXTERNAL_IDS.drop 35)
    with ⟨dests, i1⟩
  dsimp only
  rcases hr1 : seqEmit (fun _ => exploitedP1Step g acc)
      (List.replicate (randint (g i1) 100 250) ()) (i1+1) c with ⟨l1, j1, d1⟩
  dsimp only
  rcases hr2 : seqEmit (fun _ => exploitedP2Step g acc dests (randint (g j1) 91 120))
      (List.replicate (randint (g (j1+1)) 10 30) ()) (j1+2) d1 with ⟨l2, j2, d2⟩
  dsimp only
  have hp1 := seqEmit_idspec _ (List.replicate (randint (g i1) 100 250) ())
    (fun a _ i' c' => exploitedP1Step_ids g acc i' c') (i1+1) c
  rw [hr1] at hp1
  have hp2 := seqEmit_idspec _ (List.replicate (randint (g (j1+1)) 10 30) ())
    (fun a _ i' c' => exploitedP2Step_ids g acc dests (randint (g j1) 91 120) i' c')
    (j1+2) d1
  rw [hr2] at hp2
  obtain ⟨hm1, hc1⟩ := hp1
  obtain ⟨hm2, hc2⟩ := hp2
  dsimp only at hm1 hc1 hm2 hc2
  exact IdSpec_append l1 l2 j2 c d1 d2 hm1 hc1 hm2 hc2

theorem generateAll_ids (g : RStream) :
    (generateAll g).map Txn.txn_id = List.range' 1 (generateAll g).length := by
  unfold generateAll
  dsimp only
  rcases hr1 : seqEmit (normalAccount g) NORMAL_IDS 0 1 with ⟨l1, j1, d1⟩
  dsimp only
  rcases hr2 : seqEmit (complicitAccount g) COMPLICIT_MULES j1 d1 with ⟨l2, j2, d2⟩
  dsimp only
  rcases hr3 : seqEmit (recruitedAccount g) RECRUITED_MULES j2 d2 with ⟨l3, j3, d3⟩
  dsimp only
  rcases hr4 : seqEmit (exploitedAccount g) EXPLOITED_MULES j3 d3 with ⟨l4, j4, d4⟩
  dsimp only
  have hp1 := seqEmit_idspec _ NORMAL_IDS (fun a _ i' c' => normalAccount_ids g a i' c') 0 1
  rw [hr1] at hp1
  have hp2 := seqEmit_idspec _ COMPLICIT_MULES
    (fun a _ i' c' => complicitAccount_ids g a i' c') j1 d1
  rw [hr2] at hp2
  have hp3 := seqEmit_idspec _ RECRUITED_MULES
    (fun a _ i' c' => recruitedAccount_ids g a i' c') j2 d2
  rw [hr3] at hp3
  have hp4 := seqEmit_idspec _ EXPLOITED_MULES
    (fun a _ i' c' => exploitedAccount_ids g a i' c') j3 d3
  rw [hr4] at hp4
  obtain ⟨hm1, hc1⟩ := hp1
  obtain ⟨hm2, hc2⟩ := hp2
  obtain ⟨hm3, hc3⟩ := hp3
  obtain ⟨hm4, hc4⟩ := hp4
  dsimp only at hm1 hc1 hm2 hc2 hm3 hc3 hm4 hc4
  have h12 := IdSpec_append l1 l2 0 1 d1 d2 hm1 hc1 hm2 hc2
  obtain ⟨hm12, hc12⟩ := h12
  dsimp only at hm12 hc12
  have h123 := IdSpec_append (l1 ++ l2) l3 0 1 d2 d3 hm12 hc12 hm3 hc3
  obtain ⟨hm123, hc123⟩ := h123
  dsimp only at hm123 hc123
  have h1234 := IdSpec_append ((l1 ++ l2) ++ l3) l4 0 1 d3 d4 hm123 hc123 hm4 hc4
  exact h1234.1

/-- Claim C9: transaction identifiers are strictly increasing in emission
order (any later-emitted record has a strictly greater id) and unique across
the whole run: the id column of `generateAll` is exactly `1, 2, 3, ...` in
order. -/
theorem txn_ids_strictly_increasing (g : RStream) :
    List.Pairwise (· < ·) ((generateAll g).map Txn.txn_id) ∧
    ((generateAll g).map Txn.txn_id).Nodup := by
  rw [generateAll_ids g]
  constructor
  · exact List.pairwise_lt_range' 1 (generateAll g).length
  · exact (List.pairwise_lt_range' 1 (generateAll g).length).imp Nat.ne_of_lt

/-! Credit/debit pairing counts of the complicit synthesizer (claim C8) -/

theorem complicitCredits_count (g : RStream) (acc snd : AccountId) :
    ∀ n i c a0,
    ((complicitCredits g acc snd n i c a0).1.countP isCreditB) = n ∧
    ((complicitCredits g acc snd n i c a0).1.countP isDebitB) = 0 := by
  intro n
  induction n with
  | zero => intro i c a0; exact ⟨rfl, rfl⟩
  | succ n ih =>
    intro i c a0
    unfold complicitCredits add_txn
    dsimp only
    rcases hrec : complicitCredits g acc snd n
        ((rand_ts g i (TOTAL_DAYS - 60) TOTAL_DAYS true).2 + 3) (c+1)
        (round_amount (g ((rand_ts g i (TOTAL_DAYS - 60) TOTAL_DAYS true).2 + 1))
          (uniformR (g (rand_ts g i (TOTAL_DAYS - 60) TOTAL_DAYS true).2) 20000 200000))
      with ⟨rest, i2, c2, aF⟩
    have h := ih ((rand_ts g i (TOTAL_DAYS - 60) TOTAL_DAYS true).2 + 3) (c+1)
        (round_amount (g ((rand_ts g i (TOTAL_DAYS - 60) TOTAL_DAYS true).2 + 1))
          (uniformR (g (rand_ts g i (TOTAL_DAYS - 60) TOTAL_DAYS true).2) 20000 200000))
    rw [hrec] at h
    obtain ⟨h1, h2⟩ := h
    dsimp only at h1 h2 ⊢
    constructor
    · simp [List.countP_cons, h1, isCreditB]
    · simp [List.countP_cons, h2, isDebitB]

theorem complicitDebits_count (g : RStream) (acc : AccountId)
    (rcvs : List AccountId) (amt : ℚ) :
    ∀ n i c,
    ((complicitDebits g acc rcvs amt n i c).1.countP isDebitB) = n ∧
    ((complicitDebits g acc rcvs amt n i c).1.countP isCreditB) = 0 := by
  intro n
  induction n with
  | zero => intro i c; exact ⟨rfl, rfl⟩
  | succ n ih =>
    intro i c
    unfold complicitDebits add_txn
    dsimp only
    rcases hrec : complicitDebits g acc rcvs amt n
        ((rand_ts g i (TOTAL_DAYS - 60) TOTAL_DAYS true).2 + 4) (c+1)
      with ⟨rest, i2, c2⟩
    have h := ih ((rand_ts g i (TOTAL_DAYS - 60) TOTAL_DAYS true).2 + 4) (c+1)
    rw [hrec] at h
    obtain ⟨h1, h2⟩ := h
    dsimp only at h1 h2 ⊢
    constructor
    · simp [List.countP_cons, h1, isDebitB]
    · simp [List.countP_cons, h2, isCreditB]

theorem complicitSenderBlock_counts (g : RStream) (acc : AccountId)
    (rcvs : List AccountId) (snd : AccountId) (i c : ℕ) :
    ((complicitSenderBlock g acc rcvs snd i c).1.countP isDebitB)
      = ((complicitSenderBlock g acc rcvs snd i c).1.countP isCreditB) := by
  unfold complicitSenderBlock
  dsimp only
  rcases hc : complicitCredits g acc snd (randint (g i) 3 8) (i+1) c 0
    with ⟨cts, i1, c1, amt⟩
  dsimp only
  rcases hd : complicitDebits g acc rcvs amt (randint (g i) 3 8) i1 c1
    with ⟨dts, i2, c2⟩
  dsimp only
  have h1 := complicitCredits_count g acc snd (randint (g i) 3 8) (i+1) c 0
  rw [hc] at h1
  have h2 := complicitDebits_count g acc rcvs amt (randint (g i) 3 8) i1 c1
  rw [hd] at h2
  dsimp only at h1 h2
  rw [List.countP_append, List.countP_append, h1.1, h1.2, h2.1, h2.2]
  omega

theorem complicitAccount_counts (g : RStream) (acc : AccountId) (i c : ℕ) :
    ((complicitAccount g acc i c).1.countP isDebitB)
      = ((complicitAccount g acc i c).1.countP isCreditB) := by
  unfold complicitAccount
  dsimp only
  rcases h1 : sampleR g (randint (g i) 1 2) (i+1) (EXTERNAL_IDS.take 20) with ⟨rcvs, i1⟩
  dsimp only
  rcases h2 : sampleR g (randint (g i1) 8 20) (i1+1) NORMAL_IDS with ⟨snds, i2⟩
  dsimp only
  exact seqEmit_countP _ isDebitB isCreditB snds
    (fun a _ i' c' => complicitSenderBlock_counts g acc rcvs a i' c') i2 c

/-- Claim C8: for every complicit mule account, in every run, the total number
of outbound debit rows equals the total number of inbound credit rows, and
within each per-sender block the number of forwarded debits equals the number
of received credits (the two loops both run `n_credits` times). -/
theorem complicit_credit_debit_counts_match (g : RStream) (acc : AccountId)
    (rcvs : List AccountId) (snd : AccountId) (i c j d : ℕ) :
    ((complicitAccount g acc i c).1.countP isDebitB)
      = ((complicitAccount g acc i c).1.countP isCreditB) ∧
    ((complicitSenderBlock g acc rcvs snd j d).1.countP isDebitB)
      = ((complicitSenderBlock g acc rcvs snd j d).1.countP isCreditB) :=
  ⟨complicitAccount_counts g acc i c, complicitSenderBlock_counts g acc rcvs snd j d⟩

/-- Claim C5: the generation pass is deterministic in the random source: two
runs whose seeded PRNG streams agree pointwise (as two runs with the same
seed and parameters do) emit identical record sequences.  The script takes no
other input — no wall clock, no environment — so the output is a function of
the stream alone. -/
theorem generation_deterministic (g g' : RStream) (h : ∀ n, g n = g' n) :
    generateAll g = generateAll g' := by
  have hg : g = g' := funext h
  rw [hg]

/-- Witness for C5 at a concrete stream. -/
theorem generation_deterministic_witness : generateAll gZero = generateAll gZero :=
  generation_deterministic gZero gZero (fun _ => rfl)

theorem p2PrecEval : (recruitedP2Step gPrec (AccountId.mule 11) [AccountId.ext 21] 0 1).1
    = [⟨1, ⟨61, 23, 0, 0⟩, AccountId.mule 11, TxnType.debit, 93900/7, Channel.NEFT,
        AccountId.mule 1, 1, MuleType.recruited, Rule.recruitedP2⟩] := by
  norm_num [recruitedP2Step, rand_ts, randint, choiceD, uniformR, round_amount, round2,
    roundK, rhe, add_txn, gPrec, Int.fract, TOTAL_DAYS, MULE_IDS, EXTERNAL_IDS, N_MULE,
    N_EXTERNAL, List.range', List.getD]

theorem p2SelfEval : (recruitedP2Step gSelf (AccountId.mule 11) [AccountId.ext 21] 0 1).1
    = [⟨1, ⟨61, 23, 0, 0⟩, AccountId.mule 11, TxnType.debit, 13200, Channel.NEFT,
        AccountId.mule 11, 1, MuleType.recruited, Rule.recruitedP2⟩] := by
  norm_num [recruitedP2Step, rand_ts, randint, choiceD, uniformR, round_amount, round2,
    roundK, rhe, add_txn, gSelf, Int.fract, TOTAL_DAYS, MULE_IDS, EXTERNAL_IDS, N_MULE,
    N_EXTERNAL, List.range', List.getD, round_eq]
  decide

theorem blockZeroEval : (complicitSenderBlock gZero (AccountId.mule 1) [AccountId.ext 1]
      (AccountId.normal 1) 0 1).1
    = [⟨1, ⟨121, 23, 0, 0⟩, AccountId.mule 1, TxnType.credit, 20000, Channel.UPI,
        AccountId.normal 1, 1, MuleType.complicit, Rule.complicitR⟩,
       ⟨2, ⟨121, 23, 0, 0⟩, AccountId.mule 1, TxnType.credit, 20000, Channel.UPI,
        AccountId.normal 1, 1, MuleType.complicit, Rule.complicitR⟩,
       ⟨3, ⟨121, 23, 0, 0⟩, AccountId.mule 1, TxnType.credit, 20000, Channel.UPI,
        AccountId.normal 1, 1, MuleType.complicit, Rule.complicitR⟩,
       ⟨4, ⟨121, 23, 0, 0⟩, AccountId.mule 1, TxnType.debit, 18000, Channel.NEFT,
        AccountId.ext 1, 1, MuleType.complicit, Rule.complicitR⟩,
       ⟨5, ⟨121, 23, 0, 0⟩, AccountId.mule 1, TxnType.debit, 18000, Channel.NEFT,
        AccountId.ext 1, 1, MuleType.complicit, Rule.complicitR⟩,
       ⟨6, ⟨121, 23, 0, 0⟩, AccountId.mule 1, TxnType.debit, 18000, Channel.NEFT,
        AccountId.ext 1, 1, MuleType.complicit, Rule.complicitR⟩] := by
  norm_num [complicitSenderBlock, complicitCredits, complicitDebits, rand_ts, randint,
    choiceD, uniformR, round_amount, round2, roundK, rhe, add_txn, gZero, Int.fract,
    TOTAL_DAYS, List.range', List.getD, round_eq]

theorem blockPairEval : (complicitSenderBlock gPair (AccountId.mule 1) [AccountId.ext 1]
      (AccountId.normal 1) 0 1).1
    = [⟨1, ⟨121, 23, 0, 0⟩, AccountId.mule 1, TxnType.credit, 100000, Channel.UPI,
        AccountId.normal 1, 1, MuleType.complicit, Rule.complicitR⟩,
       ⟨2, ⟨121, 23, 0, 0⟩, AccountId.mule 1, TxnType.credit, 20000, Channel.UPI,
        AccountId.normal 1, 1, MuleType.complicit, Rule.complicitR⟩,
       ⟨3, ⟨121, 23, 0, 0⟩, AccountId.mule 1, TxnType.credit, 20000, Channel.UPI,
        AccountId.normal 1, 1, MuleType.complicit, Rule.complicitR⟩,
       ⟨4, ⟨121, 23, 0, 0⟩, AccountId.mule 1, TxnType.debit, 18400, Channel.NEFT,
        AccountId.ext 1, 1, MuleType.complicit, Rule.complicitR⟩,
       ⟨5, ⟨121, 23, 0, 0⟩, AccountId.mule 1, TxnType.debit, 18400, Channel.NEFT,
        AccountId.ext 1, 1, MuleType.complicit, Rule.complicitR⟩,
       ⟨6, ⟨121, 23, 0, 0⟩, AccountId.mule 1, TxnType.debit, 18400, Channel.NEFT,
        AccountId.ext 1, 1, MuleType.complicit, Rule.complicitR⟩] := by
  norm_num [complicitSenderBlock, complicitCredits, complicitDebits, rand_ts, randint,
    choiceD, uniformR, round_amount, round2, roundK, rhe, add_txn, gPair, Int.fract,
    TOTAL_DAYS, List.range', List.getD, round_eq]

/-- Counterexample to claim C2 as stated: in the concrete run `gPair` the
per-sender block receives credits of 100000, 20000, 20000 and emits three
debits of 18400 = round(0.92 * 20000, 2) — every debit skims the LAST credit,
so the first debit is far outside [92%, 99%] of its paired credit 100000. -/
theorem pairedSkim_refuted :
    pairedSkimB ((complicitSenderBlock gPair (AccountId.mule 1) [AccountId.ext 1]
      (AccountId.normal 1) 0 1).1) = false := by
  rw [blockPairEval]
  norm_num [pairedSkimB, isCreditB, isDebitB, List.filter, List.zip, List.zipWith]

/-- Counterexample to claim C7 as stated: in the concrete run `gSelf` a
recruited-mule phase-2 debit picks index 10 of `MULE_IDS + EXTERNAL_IDS[:15]`,
which is the emitting account itself (`MUL00011`) — the pool excludes neither
the emitter nor any other mule. -/
theorem c7B_refuted :
    ((recruitedP2Step gSelf (AccountId.mule 11) [AccountId.ext 21] 0 1).1.all c7B)
      = false := by
  rw [p2SelfEval]
  decide

theorem c6_den_a : ((9390000 : ℚ)/7).den ≠ 1 := by
  intro hden
  have h : ((9390000:ℚ)/7) = ((9390000:ℕ):ℚ)/((7:ℕ):ℚ) := by norm_num
  rw [h] at hden
  have hdvd := (Rat.den_div_natCast_eq_one_iff 9390000 7 (by norm_num)).mp hden
  omega

theorem c6_den_b : ((939 : ℚ)/70).den ≠ 1 := by
  intro hden
  have h : ((939:ℚ)/70) = ((939:ℕ):ℚ)/((70:ℕ):ℚ) := by norm_num
  rw [h] at hden
  have hdvd := (Rat.den_div_natCast_eq_one_iff 939 70 (by norm_num)).mp hden
  omega

/-- Counterexample to claim C6 as stated: in the concrete run `gPrec` a
recruited-mule phase-2 debit emits amount `15000 * (0.88 + 0.1/7) = 93900/7`,
which is neither a 2-decimal-place value nor a multiple of 1000 — the debit
branch multiplies by the skim factor without any rounding. -/
theorem c6B_refuted :
    ((recruitedP2Step gPrec (AccountId.mule 11) [AccountId.ext 21] 0 1).1.all c6B)
      = false := by
  rw [p2PrecEval]
  simp only [List.all_cons, List.all_nil, Bool.and_true, c6B, amountOKB, amount2dpB,
    thousandMultB]
  rw [show (100 * (93900/7 : ℚ)) = 9390000/7 by norm_num,
    show ((93900/7 : ℚ)/1000) = 939/70 by norm_num]
  simp [c6_den_a, c6_den_b]

theorem complicitCredits_types (g : RStream) (acc snd : AccountId) :
    ∀ n i c a0, ∀ t ∈ (complicitCredits g acc snd n i c a0).1,
      t.txn_type = TxnType.credit := by
  intro n
  induction n with
  | zero => intro i c a0 t ht; exact absurd ht (List.not_mem_nil t)
  | succ n ih =>
    intro i c a0 t ht
    unfold complicitCredits add_txn at ht
    dsimp only at ht
    rcases List.mem_cons.mp ht with h | h
    · rw [h]
    · exact ih _ _ _ t h

theorem complicitDebits_types (g : RStream) (acc : AccountId)
    (rcvs : List AccountId) (amt : ℚ) :
    ∀ n i c, ∀ t ∈ (complicitDebits g acc rcvs amt n i c).1,
      t.txn_type = TxnType.debit := by
  intro n
  induction n with
  | zero => intro i c t ht; exact absurd ht (List.not_mem_nil t)
  | succ n ih =>
    intro i c t ht
    unfold complicitDebits add_txn at ht
    dsimp only at ht
    rcases List.mem_cons.mp ht with h | h
    · rw [h]
    · exact ih _ _ t h

theorem getLastD_cons_of_ne_nil {α : Type} (a d : α) (l : List α) (h : l ≠ []) :
    (a :: l).getLastD d = l.getLastD d := by
  cases l with
  | nil => exact absurd rfl h
  | cons b m => rfl

theorem complicitCredits_last (g : RStream) (acc snd : AccountId) :
    ∀ n i c a0, 0 < n →
    (complicitCredits g acc snd n i c a0).1 ≠ [] ∧
    (((complicitCredits g acc snd n i c a0).1.getLastD dummyTxn).amount
      = (complicitCredits g acc snd n i c a0).2.2.2) := by
  intro n
  induction n with
  | zero => intro i c a0 h; exact absurd h (by omega)
  | succ n ih =>
    intro i c a0 _
    unfold complicitCredits add_txn
    dsimp only
    rcases Nat.eq_zero_or_pos n with hn | hn
    · subst hn
      dsimp only [complicitCredits]
      exact ⟨List.cons_ne_nil _ _, rfl⟩
    · have h := ih ((rand_ts g i (TOTAL_DAYS - 60) TOTAL_DAYS true).2 + 3) (c+1)
        (round_amount (g ((rand_ts g i (TOTAL_DAYS - 60) TOTAL_DAYS true).2 + 1))
          (uniformR (g (rand_ts g i (TOTAL_DAYS - 60) TOTAL_DAYS true).2) 20000 200000)) hn
      rcases hrec : complicitCredits g acc snd n
          ((rand_ts g i (TOTAL_DAYS - 60) TOTAL_DAYS true).2 + 3) (c+1)
          (round_amount (g ((rand_ts g i (TOTAL_DAYS - 60) TOTAL_DAYS true).2 + 1))
            (uniformR (g (rand_ts g i (TOTAL_DAYS - 60) TOTAL_DAYS true).2) 20000 200000))
        with ⟨rest, i2, c2, aF⟩
      rw [hrec] at h
      obtain ⟨hne, hla⟩ := h
      dsimp only at hne hla ⊢
      refine ⟨List.cons_ne_nil _ _, ?_⟩
      rw [getLastD_cons_of_ne_nil _ _ _ hne]
      exact hla

theorem complicitDebits_amount (g : RStream) (acc : AccountId)
    (rcvs : List AccountId) (amt : ℚ) :
    ∀ n i c, ∀ t ∈ (complicitDebits g acc rcvs amt n i c).1,
    ∃ u : ℚ, 92/100 ≤ u ∧ u ≤ 99/100 ∧
      (t.amount = round2 (amt * u) ∨ t.amount = roundK (amt * u)) := by
  intro n
  induction n with
  | zero => intro i c t ht; exact absurd ht (List.not_mem_nil t)
  | succ n ih =>
    intro i c t ht
    unfold complicitDebits add_txn at ht
    dsimp only at ht
    rcases List.mem_cons.mp ht with h | h
    · refine ⟨uniformR (g ((rand_ts g i (TOTAL_DAYS - 60) TOTAL_DAYS true).2)) (92/100)
        (99/100), le_uniformR _ _ _ (by norm_num), uniformR_le _ _ _ (by norm_num), ?_⟩
      rw [h]
      dsimp only
      unfold round_amount
      split
      · right; rfl
      · left; rfl
    · exact ih _ _ t h

/-- Claim C2 (amended): in every run, every outgoing debit of a complicit
per-sender block has an amount obtained from the amount of the LAST inbound
credit of that batch (the leftover Python loop variable `amount`), not from
its paired credit: it equals `round_amount(last * u)` for some skim factor
`u ∈ [0.92, 0.99]` — either the 2-place rounding of that product or, when the
smurfing rounding fired, the product rounded to the nearest 1000 (possibly
outside the 92-99% band even of the last credit). -/
theorem debit_amount_skims_last_credit (g : RStream) (acc : AccountId)
    (rcvs : List AccountId) (snd : AccountId) (i c : ℕ) (d : Txn)
    (hd : d ∈ ((complicitSenderBlock g acc rcvs snd i c).1.filter isDebitB)) :
    ∃ u : ℚ, 92/100 ≤ u ∧ u ≤ 99/100 ∧
      (d.amount = round2 (lastCreditAmount g acc rcvs snd i c * u) ∨
       d.amount = roundK (lastCreditAmount g acc rcvs snd i c * u)) := by
  unfold lastCreditAmount
  unfold complicitSenderBlock at hd ⊢
  dsimp only at hd ⊢
  rcases hcc : complicitCredits g acc snd (randint (g i) 3 8) (i+1) c 0
    with ⟨cts, i1, c1, amt⟩
  rw [hcc] at hd
  dsimp only at hd ⊢
  rcases hdd : complicitDebits g acc rcvs amt (randint (g i) 3 8) i1 c1
    with ⟨dts, i2, c2⟩
  rw [hdd] at hd
  dsimp only at hd ⊢
  have hct := complicitCredits_types g acc snd (randint (g i) 3 8) (i+1) c 0
  rw [hcc] at hct
  have hdt := complicitDebits_types g acc rcvs amt (randint (g i) 3 8) i1 c1
  rw [hdd] at hdt
  have hlast := complicitCredits_last g acc snd (randint (g i) 3 8) (i+1) c 0
    (by have := le_randint (g i) 3 8; omega)
  rw [hcc] at hlast
  dsimp only at hct hdt hlast
  have hfc : (cts ++ dts).filter isCreditB = cts := by
    rw [List.filter_append,
      List.filter_eq_self.mpr (fun a ha => by unfold isCreditB; rw [hct a ha]; rfl),
      List.filter_eq_nil_iff.mpr
        (fun a ha => by unfold isCreditB; rw [hdt a ha]; simp),
      List.append_nil]
  have hfd : (cts ++ dts).filter isDebitB = dts := by
    rw [List.filter_append,
      List.filter_eq_nil_iff.mpr
        (fun a ha => by unfold isDebitB; rw [hct a ha]; simp),
      List.filter_eq_self.mpr (fun a ha => by unfold isDebitB; rw [hdt a ha]; rfl),
      List.nil_append]
  rw [hfd] at hd
  simp only [hfc, hlast.2]
  have hda := complicitDebits_amount g acc rcvs amt (randint (g i) 3 8) i1 c1
  rw [hdd] at hda
  exact hda d hd

/-- Witness for the amended C2 at a concrete run: the first forwarded debit of
the all-zeros-stream block has amount 18000 = roundK(20000 * 0.92), where
20000 is the last credit amount of the batch. -/
theorem debit_amount_skims_last_credit_witness :
    ∃ u : ℚ, 92/100 ≤ u ∧ u ≤ 99/100 ∧
      ((18000 : ℚ) = round2 (lastCreditAmount gZero (AccountId.mule 1) [AccountId.ext 1]
          (AccountId.normal 1) 0 1 * u) ∨
       (18000 : ℚ) = roundK (lastCreditAmount gZero (AccountId.mule 1) [AccountId.ext 1]
          (AccountId.normal 1) 0 1 * u)) :=
  debit_amount_skims_last_credit gZero (AccountId.mule 1) [AccountId.ext 1]
    (AccountId.normal 1) 0 1
    ⟨4, ⟨121, 23, 0, 0⟩, AccountId.mule 1, TxnType.debit, 18000, Channel.NEFT,
      AccountId.ext 1, 1, MuleType.complicit, Rule.complicitR⟩
    (by rw [blockZeroEval]; decide)
